import Mathlib

/-! Shallow embedding of the UNIQA fund pipeline (src/main.py):
link resolution, tabular decoding dispatch, series extraction,
return computation and completeness validation, with theorems
checking the specification claims against the embedded code. -/

/-- A table cell: some s is a textual value, none models a missing (NaN) cell. -/
abbrev Cell := Option String

/-- A decoded table, modelling a pandas DataFrame: column names plus rows of cells. -/
structure Table where
  cols : List String
  rows : List (List Cell)
deriving DecidableEq

/-- ASCII lower-casing, modelling Python str.lower on the inputs used here. -/
def strLower (s : String) : String := String.mk (s.toList.map Char.toLower)

/-- Whitespace as Python str.strip sees it, including the no-break space. -/
def isPySpace (c : Char) : Bool := c.isWhitespace || c = '\u00A0'

/-- Python str.strip: remove leading and trailing whitespace. -/
def strTrim (s : String) : String :=
  String.mk (((s.toList.dropWhile isPySpace).reverse.dropWhile isPySpace).reverse)

/-- Python str.startswith. -/
def strStarts (s t : String) : Bool := t.toList.isPrefixOf s.toList

/-- Substring occurrence over character lists. -/
def hasSubAux (needle : List Char) : List Char → Bool
  | [] => needle.isEmpty
  | c :: cs => needle.isPrefixOf (c :: cs) || hasSubAux needle cs

/-- Python substring containment: needle in hay. -/
def strHas (hay needle : String) : Bool := hasSubAux needle.toList hay.toList

/-- Python str.replace for a single-character pattern and replacement. -/
def charReplace (s : String) (a b : Char) : String :=
  String.mk (s.toList.map (fun c => if c = a then b else c))

/-- Python str.replace of a single character with the empty string. -/
def charRemove (s : String) (a : Char) : String :=
  String.mk (s.toList.filter (fun c => c ≠ a))

/-- Left-to-right removal of the three-character marker PLN. -/
def stripPLNAux : List Char → List Char
  | 'P' :: 'L' :: 'N' :: rest => stripPLNAux rest
  | c :: rest => c :: stripPLNAux rest
  | [] => []

/-- Python str.replace of the PLN currency marker with the empty string. -/
def stripPLN (s : String) : String := String.mk (stripPLNAux s.toList)

/-- Numeric value of a digit list, most significant first. -/
def natOfDigits (ds : List Char) : Nat := ds.foldl (fun n c => n * 10 + (c.toNat - 48)) 0

/-- Parse an unsigned decimal literal: the fragment of the Python float grammar
that cleaned value cells can take (digits, optional point, digits). -/
def parseUnsigned (cs : List Char) : Option ℚ :=
  let ip := cs.takeWhile Char.isDigit
  let rest := cs.dropWhile Char.isDigit
  match rest with
  | [] => if ip.isEmpty then none else some (mkRat (natOfDigits ip) 1)
  | '.' :: rest2 =>
    let fp := rest2.takeWhile Char.isDigit
    let rest3 := rest2.dropWhile Char.isDigit
    if rest3.isEmpty && !(ip.isEmpty && fp.isEmpty) then
      some (mkRat (natOfDigits ip * 10 ^ fp.length + natOfDigits fp) (10 ^ fp.length))
    else none
  | _ => none

/-- Python float conversion on the decimal subset relevant after locale cleaning;
none models the ValueError branch. Values are modelled as exact rationals. -/
def pyFloat (s : String) : Option ℚ :=
  match (strTrim s).toList with
  | '+' :: rest => parseUnsigned rest
  | '-' :: rest => (parseUnsigned rest).map Neg.neg
  | cs => parseUnsigned cs

/-- Look up a row cell by column name, modelling row.get(col) on a pandas row:
none when the column is absent or the cell is missing. -/
def getCell (cols : List String) (r : List Cell) (c : String) : Option String :=
  match cols.findIdx? (fun x => x == c) with
  | none => none
  | some i => (r.get? i).join

/-- Locale-aware numeric parsing from src/main.py: strip, reject empty and nan,
remove no-break and regular spaces, decimal comma to point, drop the PLN marker,
then float conversion. -/
def to_float_pl (x : Option String) : Option ℚ :=
  match x with
  | none => none
  | some s0 =>
    let s := strTrim s0
    if s = "" || strLower s = "nan" then none
    else
      let s1 := charRemove (charReplace s '\u00A0' ' ') ' '
      let s2 := charReplace s1 ',' '.'
      let s3 := strTrim (stripPLN s2)
      pyFloat s3

/-- Date-cell cleaning from src/main.py: strip, reject empty and nan placeholders. -/
def clean_date (x : Option String) : Option String :=
  match x with
  | none => none
  | some s0 =>
    let s := strTrim s0
    if s = "" || strLower s = "nan" then none else some s

/-- Column identification from the series extractor in src/main.py: first name
containing data, first name containing wart or value, and when either search
fails, positional fallback to the first two columns (none when fewer than two). -/
def pickCols (cols : List String) : Option (String × String) :=
  let dc := cols.find? (fun c => strHas (strLower c) "data")
  let vc := cols.find? (fun c => strHas (strLower c) "wart" || strHas (strLower c) "value")
  match dc, vc with
  | some d, some v => some (d, v)
  | _, _ =>
    match cols with
    | c0 :: c1 :: _ => some (c0, c1)
    | _ => none

/-- The row loop of the series extractor: clean the date and value cells, skip
header-like, unparseable and empty rows, keep the rest in source order. -/
def extractRows (cols : List String) (dc vc : String) : List (List Cell) → List String × List ℚ
  | [] => ([], [])
  | r :: rs =>
    let d := clean_date (getCell cols r dc)
    let v := to_float_pl (getCell cols r vc)
    let rest := extractRows cols dc vc rs
    match d with
    | some ds =>
      if strStarts (strLower ds) "data" then rest
      else
        match v with
        | none => rest
        | some vv => (ds :: rest.1, vv :: rest.2)
    | none => rest

/-- The series extractor from src/main.py: normalise column names, identify the
date and value columns, then collect cleaned rows. -/
def extract_series (df : Table) : List String × List ℚ :=
  let cols := df.cols.map strTrim
  match pickCols cols with
  | none => ([], [])
  | some (dc, vc) => extractRows cols dc vc df.rows

/-- True when every cell of column i is missing. -/
def colAllEmpty (t : Table) (i : Nat) : Bool :=
  t.rows.all (fun r => ((r.get? i).join).isNone)

/-- pandas dropna on axis 1 with how all: drop columns whose every cell is missing. -/
def dropEmptyCols (t : Table) : Table :=
  let keep := (List.range t.cols.length).filter (fun i => !colAllEmpty t i)
  { cols := keep.filterMap (fun i => t.cols.get? i),
    rows := t.rows.map (fun r => keep.map (fun i => (r.get? i).join)) }

/-- Association-list key test, modelling membership in a Python dict. -/
def hasKey {α : Type} (l : List (Nat × α)) (k : Nat) : Bool :=
  l.any (fun kv => kv.1 == k)

/-- Association-list lookup, modelling dict.get(k). -/
def lookupA {α : Type} (l : List (Nat × α)) (k : Nat) : Option α :=
  (l.find? (fun kv => kv.1 == k)).map Prod.snd

/-- Association-list lookup with a default, modelling dict.get(k, d). -/
def lookupD {α : Type} (l : List (Nat × α)) (k : Nat) (d : α) : α :=
  (lookupA l k).getD d

/-- Insertion-order-preserving dict assignment: overwrite in place when the key
exists, append otherwise, as a Python dict does. -/
def dinsert {α : Type} (l : List (Nat × α)) (k : Nat) (v : α) : List (Nat × α) :=
  if hasKey l k then l.map (fun kv => if kv.1 == k then (k, v) else kv)
  else l ++ [(k, v)]

/-- Round a rational to the nearest integer, ties to even, as Python float
formatting does on exactly representable halves; computed on the numerator and
denominator so that the fractional part m over d is compared with one half. -/
def rhe (q : ℚ) : ℤ :=
  let d : ℤ := (q.den : ℤ)
  let f := Int.fdiv q.num d
  let m := q.num - f * d
  if 2 * m < d then f
  else if d < 2 * m then f + 1
  else if f % 2 = 0 then f else f + 1

/-- Zero-pad a natural to two digits. -/
def pad2 (n : Nat) : String := if n < 10 then "0" ++ toString n else toString n

/-- Two-fractional-digit rendering of a nonnegative rational. -/
def pyFmt2abs (q : ℚ) : String :=
  let n := (rhe (q * 100)).toNat
  toString (n / 100) ++ "." ++ pad2 (n % 100)

/-- Python format with two fractional digits (the .2f f-string) on our rational model. -/
def pyFmt2 (q : ℚ) : String := if q < 0 then "-" ++ pyFmt2abs (-q) else pyFmt2abs q

/-- The replace of the decimal point by a comma applied to formatted numbers. -/
def dotToComma (s : String) : String := charReplace s '.' ','

/-- One snapshot result per fund per run, from src/main.py. The generation
timestamp comes from the external clock and is modelled as the empty string. -/
structure FundSnapshot where
  timestamp_utc : String
  fund_name : String
  as_of : Option String
  nav : Option String
  returns : List (Nat × String)
deriving DecidableEq

/-- The fixed NAV preference list named nav_preference in src/main.py. -/
def navPreference : List Nat := [1, 3, 6, 12, 24]

/-- The per-period loop of normalize_snapshot_from_dfs: accumulate formatted
returns and first-write-wins NAV and as-of values over the input map in
insertion order. Except.error models the uncaught ZeroDivisionError raised when
a two-point-or-longer series starts at zero; the division guard is hoisted in
front of the dict write, which the original evaluation order makes equivalent. -/
def snapLoop : List (Nat × String) → Option String → Option String →
    List (Nat × Table) → Except Unit (List (Nat × String) × Option String × Option String)
  | rets, nav, as_of, [] => .ok (rets, nav, as_of)
  | rets, nav, as_of, (p, df0) :: rest =>
    let dv := extract_series (dropEmptyCols df0)
    if 2 ≤ dv.2.length && dv.2.headD 0 == 0 then .error ()
    else
      let rets1 :=
        if 2 ≤ dv.2.length then
          dinsert rets p (dotToComma (pyFmt2 ((dv.2.getLastD 0 / dv.2.headD 0 - 1) * 100)) ++ "%")
        else rets
      if (nav.isNone || as_of.isNone) && navPreference.contains p && 1 ≤ dv.2.length then
        snapLoop rets1 (some (dotToComma (pyFmt2 (dv.2.getLastD 0)))) (some (dv.1.getLastD "")) rest
      else snapLoop rets1 nav as_of rest

/-- Snapshot computation from src/main.py: per-period trailing returns plus
NAV and as-of selection over the period-to-table map in insertion order. -/
def normalize_snapshot_from_dfs (fund_name : String) (dfs_by_period : List (Nat × Table)) :
    Except Unit FundSnapshot :=
  match snapLoop [] none none dfs_by_period with
  | .error e => .error e
  | .ok (rets, nav, as_of) => .ok ⟨"", fund_name, as_of, nav, rets⟩

/-- A calendar date as carried by the validation series. -/
structure PDate where
  year : Nat
  month : Nat
  day : Nat
deriving DecidableEq

/-- Zero-pad a natural to four digits. -/
def pad4 (n : Nat) : String :=
  if n < 10 then "000" ++ toString n
  else if n < 100 then "00" ++ toString n
  else if n < 1000 then "0" ++ toString n
  else toString n

/-- datetime.strftime with the year-month-day pattern. -/
def PDate.fmt (d : PDate) : String := pad4 d.year ++ "-" ++ pad2 d.month ++ "-" ++ pad2 d.day

/-- A validation series: date and value points in source order. -/
abbrev Series := List (PDate × ℚ)

/-- The base-series date range reported by validate_fund. -/
structure BaseRange where
  startDate : String
  endDate : String
  points : Nat
deriving DecidableEq

/-- The range record built from a base series: formatted first and last dates
plus the point count. -/
def mkRange (s : Series) : BaseRange :=
  ⟨(s.headD (⟨0, 0, 0⟩, 0)).1.fmt, (s.getLastD (⟨0, 0, 0⟩, 0)).1.fmt, s.length⟩

/-- The base-period scan of validate_fund: first period of the given preference
list whose series is present and has at least two points. -/
def baseScan (series_by_period : List (Nat × Series)) : List Nat → Option (Nat × BaseRange)
  | [] => none
  | p :: ps =>
    match lookupA series_by_period p with
    | some s => if 2 ≤ s.length then some (p, mkRange s) else baseScan series_by_period ps
    | none => baseScan series_by_period ps

/-- The per-fund diagnostic record returned by validate_fund. -/
structure ValidationResult where
  fund : String
  ok : Bool
  missing_links : List Nat
  missing_files : List Nat
  empty_series : List Nat
  missing_returns : List Nat
  base_period_used : Option Nat
  base_series_range : Option BaseRange
deriving DecidableEq

/-- Completeness validation from src/main.py: the four period lists, the
longest-first base-period scan, and the overall flag. -/
def validate_fund {α : Type} (fund_name : String) (download_links : List (Nat × String))
    (dfs_by_period : List (Nat × α)) (series_by_period : List (Nat × Series))
    (computed_returns : List (Nat × String)) (periods_expected : List Nat) : ValidationResult :=
  let missing_links := periods_expected.filter (fun p => !hasKey download_links p)
  let missing_files := periods_expected.filter (fun p => !hasKey dfs_by_period p)
  let empty_series := periods_expected.filter
    (fun p => hasKey dfs_by_period p && decide ((lookupD series_by_period p []).length < 2))
  let missing_returns := periods_expected.filter (fun p => !hasKey computed_returns p)
  let base := baseScan series_by_period [24, 12, 6, 3, 1]
  let ok := (missing_links.length == 0) && (missing_files.length == 0) && (empty_series.length == 0)
  { fund := fund_name, ok := ok,
    missing_links := missing_links, missing_files := missing_files,
    empty_series := empty_series, missing_returns := missing_returns,
    base_period_used := base.map Prod.fst, base_series_range := base.map Prod.snd }

/-- Leading digit run of a character list. -/
def takeDigits (cs : List Char) : List Char := cs.takeWhile Char.isDigit

/-- The regular-expression search for the period query parameter in
find_download_links: first question mark or ampersand followed by the text
period, an equals sign and at least one digit; the digit run is the value. -/
def findPeriodParam : List Char → Option Nat
  | [] => none
  | c :: rest =>
    if (c = '?' || c = '&') && "period=".toList.isPrefixOf rest then
      let ds := takeDigits (rest.drop 7)
      if ds.isEmpty then findPeriodParam rest else some (natOfDigits ds)
    else findPeriodParam rest

/-- Python str.lstrip with a slash argument. -/
def lstripSlash (s : String) : String := String.mk (s.toList.dropWhile (fun c => c = '/'))

/-- Python str.rstrip with a slash argument. -/
def rstripSlash (s : String) : String :=
  String.mk ((s.toList.reverse.dropWhile (fun c => c = '/')).reverse)

/-- Candidate href resolution from find_download_links in src/main.py: a target
starting with a slash gets the fixed origin prefixed, then a target starting
with http is used as given, anything else is joined to the base URL. -/
def resolveHref (base_url href : String) : String :=
  if strStarts href "/" then "https://www.uniqa.pl" ++ href
  else if strStarts href "http" then href
  else rstripSlash base_url ++ "/" ++ lstripSlash href

/-- One anchor of the link-resolver loop in src/main.py: keep a candidate
carrying the three markers, parse its period, keep only the fixed period set,
resolve the target, and let it overwrite an earlier link for the same period. -/
def linkStep (base_url : String) (out : List (Nat × String)) (href : String) :
    List (Nat × String) :=
  if strHas href "fundId=" && strHas href "fundType=tfi" && strHas href "period=" then
    match findPeriodParam href.toList with
    | none => out
    | some p =>
      if p ∈ ([1, 3, 6, 12, 24] : List Nat) then dinsert out p (resolveHref base_url href)
      else out
  else out

/-- Link resolver from src/main.py over the list of anchor href targets in
document order. -/
def find_download_links (hrefs : List String) (base_url : String) : List (Nat × String) :=
  hrefs.foldl (linkStep base_url) []

/-- Content sniffing from parse_download_file: csv content type advertised, or a
comma among the first fifty characters of the payload. -/
def csvSniff (content content_type : String) : Bool :=
  let ct := strLower content_type
  strHas ct "text/csv" || strHas ct "application/csv" ||
    0 < ((content.toList.take 50).filter (fun c => c = ',')).length

/-- The delimiter loop of parse_download_file: first candidate separator whose
read succeeds with more than one column wins; afterwards the default read is
returned whatever it holds. -/
def tryDelims (read_csv : Option String → Except Unit Table) : List String → Except Unit Table
  | [] => read_csv none
  | sep :: rest =>
    match read_csv (some sep) with
    | .ok df => if 1 < df.cols.length then .ok df else tryDelims read_csv rest
    | .error _ => tryDelims read_csv rest

/-- Tabular decoder dispatch from src/main.py, parameterised over the pandas
readers: read_csv takes an optional separator (none is the default read) and
read_excel decodes the first worksheet. -/
def parse_download_file (read_csv : Option String → Except Unit Table)
    (read_excel : Unit → Except Unit Table) (content content_type : String) :
    Except Unit Table :=
  if csvSniff content content_type then tryDelims read_csv [";", ",", "\t"]
  else read_excel ()

/-- The call to the name extract_nav_series in the main loop of src/main.py:
the name is defined nowhere, so every call raises NameError, modelled as an
unconditional error. -/
def extract_nav_series (_df : Table) : Except Unit Series := .error ()

/-- The per-period collection loop of main in src/main.py: for each configured
period with a truthy link the payload is fetched and decoded (both modelled as
the total function decode, since their failures abort the run before any
validation record exists) and the validation series is taken from
extract_nav_series with its failure swallowed into an empty list. -/
def collectPeriodData (links : List (Nat × String)) (decode : String → Table) :
    List Nat → List (Nat × Table) × List (Nat × Series) →
    List (Nat × Table) × List (Nat × Series)
  | [], acc => acc
  | p :: ps, acc =>
    match lookupA links p with
    | none => collectPeriodData links decode ps acc
    | some url =>
      if url = "" then collectPeriodData links decode ps acc
      else
        let df := decode url
        let s := match extract_nav_series df with
          | .ok s => s
          | .error _ => []
        collectPeriodData links decode ps (dinsert acc.1 p df, dinsert acc.2 p s)

/-- One fund iteration of main in src/main.py, from resolved links to the
validation record: none models a run aborted by the uncaught error inside
snapshot computation, in which case no validation record is produced. -/
def processFund (periods : List Nat) (fund_name : String) (links : List (Nat × String))
    (decode : String → Table) : Option ValidationResult :=
  let acc := collectPeriodData links decode periods ([], [])
  match normalize_snapshot_from_dfs fund_name acc.1 with
  | .error _ => none
  | .ok snap => some (validate_fund fund_name links acc.1 acc.2 snap.returns periods)

/-- Row-keeping rule as the specification words it: the date cell after trimming
is non-empty, not the nan placeholder and does not start with the
date-indicating token case-insensitively, and the value cell parses numerically
after locale cleaning; kept rows carry the trimmed date and the parsed value. -/
def specRowKeep (cols : List String) (dc vc : String) (r : List Cell) : Option (String × ℚ) :=
  match getCell cols r dc, to_float_pl (getCell cols r vc) with
  | some raw, some v =>
    let d := strTrim raw
    if d ≠ "" ∧ strLower d ≠ "nan" ∧ strStarts (strLower d) "data" = false then some (d, v)
    else none
  | _, _ => none

/-- Series extraction as the specification words it: identify the columns, then
keep exactly the surviving rows in source order. -/
def specExtractC7 (df : Table) : List String × List ℚ :=
  let cols := df.cols.map strTrim
  match pickCols cols with
  | none => ([], [])
  | some (dc, vc) =>
    let kept := df.rows.filterMap (specRowKeep cols dc vc)
    (kept.map Prod.fst, kept.map Prod.snd)

theorem extractRows_eq_filterMap (cols : List String) (dc vc : String) :
    ∀ rows : List (List Cell),
      extractRows cols dc vc rows =
        ((rows.filterMap (specRowKeep cols dc vc)).map Prod.fst,
         (rows.filterMap (specRowKeep cols dc vc)).map Prod.snd)
  | [] => rfl
  | r :: rs => by
    have ih := extractRows_eq_filterMap cols dc vc rs
    simp only [extractRows, List.filterMap_cons]
    cases hd : getCell cols r dc with
    | none => simp [specRowKeep, clean_date, hd, ih]
    | some raw =>
      by_cases hempty : strTrim raw = "" ∨ strLower (strTrim raw) = "nan"
      · have hcd : clean_date (some raw) = none := by
          rcases hempty with h | h <;> simp [clean_date, h]
        cases hv : to_float_pl (getCell cols r vc) with
        | none => simp [specRowKeep, hd, hv, hcd, ih]
        | some v =>
          have : specRowKeep cols dc vc r = none := by
            rcases hempty with h | h <;> simp [specRowKeep, hd, hv, h]
          simp [hcd, this, ih]
      · push_neg at hempty
        have hcd : clean_date (some raw) = some (strTrim raw) := by
          simp [clean_date, hempty.1, hempty.2]
        by_cases hdata : strStarts (strLower (strTrim raw)) "data" = true
        · have : specRowKeep cols dc vc r = none := by
            cases hv : to_float_pl (getCell cols r vc) with
            | none => simp [specRowKeep, hd, hv]
            | some v => simp [specRowKeep, hd, hv, hdata]
          simp [hcd, hdata, this, ih]
        · have hdata' : strStarts (strLower (strTrim raw)) "data" = false := by
            simpa using hdata
          cases hv : to_float_pl (getCell cols r vc) with
          | none =>
            have : specRowKeep cols dc vc r = none := by simp [specRowKeep, hd, hv]
            simp [hcd, hdata', this, ih]
          | some v =>
            have : specRowKeep cols dc vc r = some (strTrim raw, v) := by
              simp [specRowKeep, hd, hv, hempty.1, hempty.2, hdata']
            simp [hcd, hdata', hv, this, ih]

/-- C7: for every table, the extracted series contains exactly the rows, in
source order, whose trimmed date cell is non-empty, not the nan placeholder and
not a repeated header label, and whose value cell parses after locale cleaning;
all other rows are dropped. -/
theorem C7_extraction_row_filter (df : Table) : extract_series df = specExtractC7 df := by
  unfold extract_series specExtractC7
  cases hpc : pickCols (df.cols.map strTrim) with
  | none => simp [hpc]
  | some dcvc =>
    cases dcvc with
    | mk dc vc => simp [hpc, extractRows_eq_filterMap]

/-- C4: the overall flag of the completeness validator equals the conjunction of
the missing-link, missing-file and empty-series lists being empty, and the
computed-returns map never influences the flag. -/
theorem C4_ok_flag {α : Type} (fund_name : String) (download_links : List (Nat × String))
    (dfs_by_period : List (Nat × α)) (series_by_period : List (Nat × Series))
    (cr cr2 : List (Nat × String)) (periods_expected : List Nat) :
    ((validate_fund fund_name download_links dfs_by_period series_by_period cr
        periods_expected).ok = true ↔
      ((validate_fund fund_name download_links dfs_by_period series_by_period cr
          periods_expected).missing_links = [] ∧
        (validate_fund fund_name download_links dfs_by_period series_by_period cr
          periods_expected).missing_files = [] ∧
        (validate_fund fund_name download_links dfs_by_period series_by_period cr
          periods_expected).empty_series = [])) ∧
    (validate_fund fund_name download_links dfs_by_period series_by_period cr
      periods_expected).ok =
      (validate_fund fund_name download_links dfs_by_period series_by_period cr2
        periods_expected).ok := by
  constructor
  · simp [validate_fund, List.length_eq_zero, and_assoc]
  · rfl

/-- The two-point table whose series starts at the value zero. -/
def tC1 : Table :=
  ⟨["Data", "Wartosc"], [[some "01.01.2024", some "0"], [some "01.02.2024", some "1"]]⟩

/-- C1: evaluation at the failing input. On a two-point series whose first value
is zero the code does not omit the period: the division raises an uncaught
ZeroDivisionError, so snapshot computation produces no snapshot at all and the
remaining periods of the run are not processed, contradicting the documented
omit-and-continue policy. -/
theorem C1_zero_division_raises :
    normalize_snapshot_from_dfs "F" [(1, tC1)] = Except.error () := by rfl

theorem baseScan_eq_find (series : List (Nat × Series)) :
    ∀ ps : List Nat,
      baseScan series ps =
        (ps.find? (fun p => 2 ≤ (lookupD series p []).length)).map
          (fun p => (p, mkRange (lookupD series p [])))
  | [] => rfl
  | p :: ps => by
    have ih := baseScan_eq_find series ps
    simp only [baseScan]
    cases hl : lookupA series p with
    | none =>
      have hp : (decide (2 ≤ (lookupD series p []).length)) = false := by
        simp [lookupD, hl]
      simp [List.find?_cons, hp, ih]
    | some s =>
      by_cases h2 : 2 ≤ s.length
      · have hp : (decide (2 ≤ (lookupD series p []).length)) = true := by
          simp [lookupD, hl, h2]
        simp [List.find?_cons, hp, h2, lookupD, hl]
      · have hp : (decide (2 ≤ (lookupD series p []).length)) = false := by
          simp [lookupD, hl]; omega
        simp [List.find?_cons, hp, h2, ih]

/-- C9 amended: the reported base period is the first period, scanning from
longest to shortest, whose series has at least two points; that period supplies
the start date, end date and point count, and when no period qualifies both
fields are absent. -/
theorem C9_base_period_scan {α : Type} (fund_name : String)
    (download_links : List (Nat × String)) (dfs_by_period : List (Nat × α))
    (series_by_period : List (Nat × Series)) (computed_returns : List (Nat × String))
    (periods_expected : List Nat) :
    (validate_fund fund_name download_links dfs_by_period series_by_period computed_returns
        periods_expected).base_period_used =
      ([24, 12, 6, 3, 1].find? (fun p => 2 ≤ (lookupD series_by_period p []).length)) ∧
    (validate_fund fund_name download_links dfs_by_period series_by_period computed_returns
        periods_expected).base_series_range =
      ([24, 12, 6, 3, 1].find? (fun p => 2 ≤ (lookupD series_by_period p []).length)).map
        (fun p => mkRange (lookupD series_by_period p [])) := by
  have hb := baseScan_eq_find series_by_period [24, 12, 6, 3, 1]
  constructor <;>
    · simp only [validate_fund, hb]
      cases List.find? (fun p => decide (2 ≤ (lookupD series_by_period p []).length))
        [24, 12, 6, 3, 1] <;> simp

/-- C9 counterexample: a series map whose longest period holds exactly one point
yields no base period at all, while the claim as stated (at least one point)
would report period 24 as the base. -/
theorem C9_counterexample :
    (validate_fund "F" [] [(24, ())] [(24, [((⟨2024, 1, 1⟩ : PDate), (1 : ℚ))])] []
        [24]).base_period_used = none ∧
    (lookupD [(24, [((⟨2024, 1, 1⟩ : PDate), (1 : ℚ))])] 24 ([] : Series)).length = 1 := by
  constructor <;> decide

theorem hasKey_dinsert {α : Type} (l : List (Nat × α)) (k q : Nat) (v : α)
    (h : hasKey (dinsert l k v) q = true) : hasKey l q = true ∨ q = k := by
  by_cases hq : q = k
  · right; exact hq
  · left
    unfold dinsert at h
    split at h
    · rw [hasKey, List.any_map] at h
      rw [hasKey, List.any_eq_true] at *
      obtain ⟨kv, hmem, hkv⟩ := h
      refine ⟨kv, hmem, ?_⟩
      by_cases hek : kv.1 == k
      · exfalso
        simp only [Function.comp, hek, if_pos] at hkv
        have hkq : k = q := by simpa using hkv
        exact hq hkq.symm
      · simpa [Function.comp, hek] using hkv
    · rw [hasKey, List.any_append] at h
      simp only [Bool.or_eq_true] at h
      rcases h with h | h
      · exact h
      · exfalso
        simp at h
        exact hq h.symm

theorem foldl_linkStep_keys (base_url : String) :
    ∀ (hrefs : List String) (out : List (Nat × String)),
      (∀ q, hasKey out q = true → q ∈ ([1, 3, 6, 12, 24] : List Nat)) →
      ∀ q, hasKey (hrefs.foldl (linkStep base_url) out) q = true →
        q ∈ ([1, 3, 6, 12, 24] : List Nat)
  | [], _, hout => hout
  | href :: t, out, hout => by
    simp only [List.foldl_cons]
    refine foldl_linkStep_keys base_url t (linkStep base_url out href) ?_
    intro q h
    unfold linkStep at h
    by_cases hc : (strHas href "fundId=" && strHas href "fundType=tfi" &&
        strHas href "period=") = true
    · rw [if_pos hc] at h
      cases hfp : findPeriodParam href.toList with
      | none => rw [hfp] at h; exact hout q h
      | some p =>
        rw [hfp] at h
        dsimp only [] at h
        by_cases hp : p ∈ ([1, 3, 6, 12, 24] : List Nat)
        · rw [if_pos hp] at h
          rcases hasKey_dinsert out p q (resolveHref base_url href) h with h1 | h1
          · exact hout q h1
          · rwa [h1]
        · rw [if_neg hp] at h; exact hout q h
    · rw [if_neg hc] at h
      exact hout q h

/-- C5 amended: the link-resolver output contains only periods of the fixed
hardcoded set 1, 3, 6, 12, 24, independently of the configured period list,
which the resolver never sees. -/
theorem C5_fixed_period_set (hrefs : List String) (base_url : String) (p : Nat)
    (h : hasKey (find_download_links hrefs base_url) p = true) :
    p ∈ ([1, 3, 6, 12, 24] : List Nat) :=
  foldl_linkStep_keys base_url hrefs [] (fun _ hq => by simp [hasKey] at hq) p h

theorem C5_fixed_period_set_witness :
    hasKey (find_download_links ["/x?fundId=1&fundType=tfi&period=6"] "b") 6 = true ∧
    6 ∈ ([1, 3, 6, 12, 24] : List Nat) :=
  ⟨by decide, C5_fixed_period_set ["/x?fundId=1&fundType=tfi&period=6"] "b" 6 (by decide)⟩

/-- C5 counterexample: with the configured period list holding only 1 and 3, a
candidate link with period 6 is still emitted by the resolver, so the output
mapping is not limited to members of the configured period list. -/
theorem C5_counterexample :
    hasKey (find_download_links ["/x?fundId=1&fundType=tfi&period=6"]
        "https://www.uniqa.pl/f") 6 = true ∧
    (6 : Nat) ∉ ([1, 3] : List Nat) := by
  constructor <;> decide

/-- Resolution policy as amended: every target starting with a slash, the
scheme-relative double-slash form included, is prefixed with the institution
fixed origin; targets starting with http are used verbatim; any other relative
form is joined against the fund base URL. -/
def specResolveC6 (base_url href : String) : String :=
  if strStarts href "/" then "https://www.uniqa.pl" ++ href
  else if strStarts href "http" then href
  else rstripSlash base_url ++ "/" ++ lstripSlash href

/-- The link-resolver pipeline with the amended resolution policy in place of
the code resolution. -/
def find_download_links_specC6 (hrefs : List String) (base_url : String) :
    List (Nat × String) :=
  hrefs.foldl
    (fun out href =>
      if strHas href "fundId=" && strHas href "fundType=tfi" && strHas href "period=" then
        match findPeriodParam href.toList with
        | none => out
        | some p =>
          if p ∈ ([1, 3, 6, 12, 24] : List Nat) then
            dinsert out p (specResolveC6 base_url href)
          else out
      else out)
    []

/-- C6 amended: the link resolver resolves every candidate target exactly as
the amended policy states, with slash-leading targets (scheme-relative ones
included) prefixed by the fixed origin rather than used verbatim. -/
theorem C6_resolution_policy (hrefs : List String) (base_url : String) :
    find_download_links hrefs base_url = find_download_links_specC6 hrefs base_url := rfl

/-- The scheme-relative candidate target used to refute the verbatim clause. -/
def hC6 : String := "//cdn.example.com/a?fundId=1&fundType=tfi&period=1"

/-- C6 counterexample: a scheme-relative target is not used verbatim; the code
routes it through the root-relative branch and prefixes the fixed origin. -/
theorem C6_counterexample :
    lookupA (find_download_links [hC6] "https://www.uniqa.pl/f") 1 =
      some ("https://www.uniqa.pl" ++ hC6) ∧
    "https://www.uniqa.pl" ++ hC6 ≠ hC6 := by
  constructor <;> decide

/-- Delimited-text decoding as the specification words it: the result of the
first candidate delimiter, in the given order, whose read yields a table with
more than one column; when none qualifies, the default single-delimiter read is
surfaced whatever it holds. -/
def specFirstDelim (read_csv : Option String → Except Unit Table) (seps : List String) :
    Except Unit Table :=
  match (seps.filterMap (fun sep =>
      match read_csv (some sep) with
      | .ok df => if 1 < df.cols.length then some df else none
      | .error _ => none)).head? with
  | some df => .ok df
  | none => read_csv none

theorem tryDelims_eq_spec (read_csv : Option String → Except Unit Table) :
    ∀ seps : List String, tryDelims read_csv seps = specFirstDelim read_csv seps
  | [] => rfl
  | sep :: rest => by
    have ih := tryDelims_eq_spec read_csv rest
    simp only [tryDelims, specFirstDelim, List.filterMap_cons]
    cases h : read_csv (some sep) with
    | ok df =>
      by_cases h1 : 1 < df.cols.length
      · simp [h1]
      · simp only [h1, if_neg, ite_false]
        rw [ih]
        rfl
    | error e =>
      rw [ih]
      rfl

/-- C8: for every payload routed to delimited-text decoding, the decoder tries
the delimiters semicolon, comma and tab in that fixed order, returns the first
read with more than one column, and otherwise surfaces the default read even
when it has only one column. -/
theorem C8_delimiter_order (read_csv : Option String → Except Unit Table)
    (read_excel : Unit → Except Unit Table) (content content_type : String)
    (h : csvSniff content content_type = true) :
    parse_download_file read_csv read_excel content content_type =
      specFirstDelim read_csv [";", ",", "\t"] := by
  unfold parse_download_file
  rw [if_pos h, tryDelims_eq_spec]

theorem C8_delimiter_order_witness :
    csvSniff "," "" = true ∧
    parse_download_file (fun _ => Except.error ()) (fun _ => Except.error ()) "," "" =
      specFirstDelim (fun _ => Except.error ()) [";", ",", "\t"] :=
  ⟨by decide,
    C8_delimiter_order (fun _ => Except.error ()) (fun _ => Except.error ()) "," "" (by decide)⟩

/-- NAV and as-of selection as amended: scanning the period-to-table map in its
insertion order, the first period belonging to the fixed preference set whose
extracted series is non-empty supplies the formatted final value and the final
date; later periods never overwrite the pair. -/
def specNavSelect : List (Nat × Table) → Option (String × String)
  | [] => none
  | (p, df0) :: rest =>
    let dv := extract_series (dropEmptyCols df0)
    if navPreference.contains p && 1 ≤ dv.2.length then
      some (dotToComma (pyFmt2 (dv.2.getLastD 0)), dv.1.getLastD "")
    else specNavSelect rest

theorem snapLoop_set_stable :
    ∀ (l : List (Nat × Table)) (rets : List (Nat × String)) (a b : String)
      (res : List (Nat × String) × Option String × Option String),
      snapLoop rets (some a) (some b) l = .ok res → res.2.1 = some a ∧ res.2.2 = some b
  | [], rets, a, b, res => by
    intro h
    simp only [snapLoop] at h
    cases h
    exact ⟨rfl, rfl⟩
  | (p, df0) :: rest, rets, a, b, res => by
    intro h
    simp only [snapLoop] at h
    by_cases hz : (2 ≤ (extract_series (dropEmptyCols df0)).2.length &&
        (extract_series (dropEmptyCols df0)).2.headD 0 == 0) = true
    · rw [if_pos hz] at h; cases h
    · rw [if_neg hz] at h
      simp only [Option.isNone_some, Bool.or_self, Bool.false_and, Bool.false_or,
        if_false, Bool.false_eq_true] at h
      exact snapLoop_set_stable rest _ a b res h

theorem snapLoop_none_nav :
    ∀ (l : List (Nat × Table)) (rets : List (Nat × String))
      (res : List (Nat × String) × Option String × Option String),
      snapLoop rets none none l = .ok res →
      res.2.1 = (specNavSelect l).map Prod.fst ∧ res.2.2 = (specNavSelect l).map Prod.snd
  | [], rets, res => by
    intro h
    simp only [snapLoop] at h
    cases h
    exact ⟨rfl, rfl⟩
  | (p, df0) :: rest, rets, res => by
    intro h
    simp only [snapLoop] at h
    by_cases hz : (2 ≤ (extract_series (dropEmptyCols df0)).2.length &&
        (extract_series (dropEmptyCols df0)).2.headD 0 == 0) = true
    · rw [if_pos hz] at h; cases h
    · rw [if_neg hz] at h
      simp only [Option.isNone_none, Bool.or_self, Bool.true_and] at h
      by_cases hc : (navPreference.contains p &&
          decide (1 ≤ (extract_series (dropEmptyCols df0)).2.length)) = true
      · rw [if_pos hc] at h
        have hs := snapLoop_set_stable rest _ _ _ res h
        have hsel : specNavSelect ((p, df0) :: rest) =
            some (dotToComma (pyFmt2 ((extract_series (dropEmptyCols df0)).2.getLastD 0)),
              (extract_series (dropEmptyCols df0)).1.getLastD "") := by
          simp only [specNavSelect]
          rw [if_pos hc]
        rw [hsel]
        exact hs
      · rw [if_neg hc] at h
        have hsel : specNavSelect ((p, df0) :: rest) = specNavSelect rest := by
          simp only [specNavSelect]
          rw [if_neg hc]
        rw [hsel]
        exact snapLoop_none_nav rest _ res h

/-- C3 amended: NAV and as-of are taken from the first period in the insertion
order of the per-period input map that belongs to the fixed preference set and
has at least one extracted point; once set they are never overwritten, and
because the map is built in configured-period order, reordering the configured
period list can change which period supplies them. -/
theorem C3_nav_insertion_order (fund_name : String) (dfs : List (Nat × Table))
    (snap : FundSnapshot) (h : normalize_snapshot_from_dfs fund_name dfs = .ok snap) :
    snap.nav = (specNavSelect dfs).map Prod.fst ∧
    snap.as_of = (specNavSelect dfs).map Prod.snd := by
  unfold normalize_snapshot_from_dfs at h
  cases hs : snapLoop [] none none dfs with
  | error e => rw [hs] at h; cases h
  | ok t =>
    rw [hs] at h
    obtain ⟨rets, nav, as_of⟩ := t
    cases h
    exact snapLoop_none_nav dfs [] (rets, nav, as_of) hs

/-- The one-point table for period three used around claim C3. -/
def tC3a : Table := ⟨["Data", "Wartosc"], [[some "01.01.2024", some "100"]]⟩

/-- The one-point table for period one used around claim C3. -/
def tC3b : Table := ⟨["Data", "Wartosc"], [[some "02.02.2024", some "200"]]⟩

unseal Rat.add Rat.mul Rat.sub Rat.inv in
/-- C3 counterexample: periods three and one both have data, yet NAV comes from
period three because it was inserted first, and reordering the map flips the
NAV to period one, so the shortest period does not always win and reordering is
not neutral. -/
theorem C3_counterexample :
    (normalize_snapshot_from_dfs "F" [(3, tC3a), (1, tC3b)]).toOption.map
        (fun s => s.nav) = some (some "100,00") ∧
    (normalize_snapshot_from_dfs "F" [(1, tC3b), (3, tC3a)]).toOption.map
        (fun s => s.nav) = some (some "200,00") := by
  constructor <;> decide

/-- The snapshot value used by the C3 witness. -/
def snapC3 : FundSnapshot := ⟨"", "F", some "01.01.2024", some "100,00", []⟩

unseal Rat.add Rat.mul Rat.sub Rat.inv in
theorem C3_nav_insertion_order_witness :
    normalize_snapshot_from_dfs "F" [(3, tC3a)] = Except.ok snapC3 ∧
    (snapC3.nav = (specNavSelect [(3, tC3a)]).map Prod.fst ∧
      snapC3.as_of = (specNavSelect [(3, tC3a)]).map Prod.snd) :=
  ⟨by rfl, C3_nav_insertion_order "F" [(3, tC3a)] snapC3 (by rfl)⟩

theorem specNavSelect_mem :
    ∀ (l : List (Nat × Table)) (nv : String × String), specNavSelect l = some nv →
      ∃ p df, (p, df) ∈ l ∧ navPreference.contains p = true ∧
        (extract_series (dropEmptyCols df)).2 ≠ [] ∧
        nv.1 = dotToComma (pyFmt2 ((extract_series (dropEmptyCols df)).2.getLastD 0)) ∧
        nv.2 = (extract_series (dropEmptyCols df)).1.getLastD ""
  | [], nv => by intro h; cases h
  | (p, df0) :: rest, nv => by
    intro h
    simp only [specNavSelect] at h
    by_cases hc : (navPreference.contains p &&
        decide (1 ≤ (extract_series (dropEmptyCols df0)).2.length)) = true
    · rw [if_pos hc] at h
      cases h
      have hparts := Bool.and_eq_true_iff.mp hc
      refine ⟨p, df0, List.mem_cons_self _ _, hparts.1, ?_, rfl, rfl⟩
      have hlen : 1 ≤ (extract_series (dropEmptyCols df0)).2.length := by
        simpa using hparts.2
      intro hnil
      rw [hnil] at hlen
      simp at hlen
    · rw [if_neg hc] at h
      obtain ⟨p', df', hmem, hrest⟩ := specNavSelect_mem rest nv h
      exact ⟨p', df', List.mem_cons_of_mem _ hmem, hrest⟩

/-- C10: the snapshot NAV and as-of fields are either both absent or both set,
and when set they come from the final point of the same period series: the
value with two fractional digits and the comma separator, the date verbatim. -/
theorem C10_nav_asof_same_period (fund_name : String) (dfs : List (Nat × Table))
    (snap : FundSnapshot) (h : normalize_snapshot_from_dfs fund_name dfs = .ok snap) :
    (snap.nav = none ∧ snap.as_of = none) ∨
      ∃ p df, (p, df) ∈ dfs ∧ navPreference.contains p = true ∧
        (extract_series (dropEmptyCols df)).2 ≠ [] ∧
        snap.nav = some (dotToComma (pyFmt2 ((extract_series (dropEmptyCols df)).2.getLastD 0))) ∧
        snap.as_of = some ((extract_series (dropEmptyCols df)).1.getLastD "") := by
  unfold normalize_snapshot_from_dfs at h
  cases hs : snapLoop [] none none dfs with
  | error e => rw [hs] at h; cases h
  | ok t =>
    rw [hs] at h
    obtain ⟨rets, nav, as_of⟩ := t
    cases h
    have hnav := snapLoop_none_nav dfs [] (rets, nav, as_of) hs
    cases hsel : specNavSelect dfs with
    | none =>
      left
      rw [hsel] at hnav
      exact ⟨hnav.1, hnav.2⟩
    | some nv =>
      right
      rw [hsel] at hnav
      obtain ⟨p, df, hmem, hpref, hnil, h1, h2⟩ := specNavSelect_mem dfs nv hsel
      refine ⟨p, df, hmem, hpref, hnil, ?_, ?_⟩
      · have h1' := hnav.1
        simp only [Option.map_some'] at h1'
        rw [h1] at h1'
        exact h1'
      · have h2' := hnav.2
        simp only [Option.map_some'] at h2'
        rw [h2] at h2'
        exact h2' 

/-- The one-point table used by the C10 witness. -/
def tC10 : Table := ⟨["Data", "Wartosc"], [[some "05.05.2024", some "42"]]⟩

unseal Rat.add Rat.mul Rat.sub Rat.inv in
theorem C10_nav_asof_same_period_witness :
    normalize_snapshot_from_dfs "F" [(1, tC10)] =
      Except.ok (⟨"", "F", some "05.05.2024", some "42,00", []⟩ : FundSnapshot) ∧
    (((⟨"", "F", some "05.05.2024", some "42,00", []⟩ : FundSnapshot).nav = none ∧
        (⟨"", "F", some "05.05.2024", some "42,00", []⟩ : FundSnapshot).as_of = none) ∨
      ∃ p df, (p, df) ∈ ([(1, tC10)] : List (Nat × Table)) ∧
        navPreference.contains p = true ∧
        (extract_series (dropEmptyCols df)).2 ≠ [] ∧
        (⟨"", "F", some "05.05.2024", some "42,00", []⟩ : FundSnapshot).nav =
          some (dotToComma (pyFmt2 ((extract_series (dropEmptyCols df)).2.getLastD 0))) ∧
        (⟨"", "F", some "05.05.2024", some "42,00", []⟩ : FundSnapshot).as_of =
          some ((extract_series (dropEmptyCols df)).1.getLastD "")) :=
  ⟨by rfl, C10_nav_asof_same_period "F" [(1, tC10)] _ (by rfl)⟩

theorem dinsert_all_const {α : Type} (l : List (Nat × α)) (k : Nat) (c : α)
    (h : ∀ kv ∈ l, kv.2 = c) : ∀ kv ∈ dinsert l k c, kv.2 = c := by
  intro kv hkv
  unfold dinsert at hkv
  split at hkv
  · obtain ⟨kv0, hkv0, heq⟩ := List.mem_map.mp hkv
    by_cases he : (kv0.1 == k) = true
    · rw [if_pos he] at heq
      rw [← heq]
    · rw [if_neg he] at heq
      rw [← heq]
      exact h kv0 hkv0
  · rcases List.mem_append.mp hkv with h1 | h1
    · exact h kv h1
    · have : kv = (k, c) := by simpa using h1
      rw [this]

theorem lookupA_all_const {α : Type} (l : List (Nat × α)) (k : Nat) (c : α)
    (h : ∀ kv ∈ l, kv.2 = c) : lookupA l k = none ∨ lookupA l k = some c := by
  unfold lookupA
  cases hf : l.find? (fun kv => kv.1 == k) with
  | none => exact Or.inl rfl
  | some kv =>
    right
    have hmem := List.mem_of_find?_eq_some hf
    simp [h kv hmem]

theorem collect_props (links : List (Nat × String)) (decode : String → Table) :
    ∀ (ps : List Nat) (acc : List (Nat × Table) × List (Nat × Series)),
      (∀ kv ∈ acc.2, kv.2 = ([] : Series)) →
      ((∀ kv ∈ (collectPeriodData links decode ps acc).2, kv.2 = ([] : Series)) ∧
        (∀ q, hasKey (collectPeriodData links decode ps acc).1 q = true →
          hasKey acc.1 q = true ∨ q ∈ ps))
  | [], acc, hser => ⟨hser, fun _ hq => Or.inl hq⟩
  | p :: ps, acc, hser => by
    simp only [collectPeriodData]
    cases hl : lookupA links p with
    | none =>
      have ih := collect_props links decode ps acc hser
      exact ⟨ih.1, fun q hq => (ih.2 q hq).imp id (List.mem_cons_of_mem p)⟩
    | some url =>
      dsimp only []
      by_cases hu : url = ""
      · rw [if_pos hu]
        have ih := collect_props links decode ps acc hser
        exact ⟨ih.1, fun q hq => (ih.2 q hq).imp id (List.mem_cons_of_mem p)⟩
      · rw [if_neg hu]
        dsimp only [extract_nav_series]
        have ih := collect_props links decode ps
          (dinsert acc.1 p (decode url), dinsert acc.2 p [])
          (dinsert_all_const acc.2 p [] hser)
        refine ⟨ih.1, ?_⟩
        intro q hq
        rcases ih.2 q hq with h1 | h1
        · rcases hasKey_dinsert acc.1 p q (decode url) h1 with h2 | h2
          · exact Or.inl h2
          · exact Or.inr (h2 ▸ List.mem_cons_self p ps)
        · exact Or.inr (List.mem_cons_of_mem p h1)

theorem validate_ok_false_of_mem_empty {α : Type} (fund_name : String)
    (download_links : List (Nat × String)) (dfs_by_period : List (Nat × α))
    (series_by_period : List (Nat × Series)) (computed_returns : List (Nat × String))
    (periods_expected : List Nat) (p : Nat)
    (h : p ∈ (validate_fund fund_name download_links dfs_by_period series_by_period
        computed_returns periods_expected).empty_series) :
    (validate_fund fund_name download_links dfs_by_period series_by_period
      computed_returns periods_expected).ok = false := by
  simp only [validate_fund] at h ⊢
  cases hes : List.filter
      (fun p => hasKey dfs_by_period p && decide ((lookupD series_by_period p []).length < 2))
      periods_expected with
  | nil => rw [hes] at h; cases h
  | cons a l => simp

theorem validate_ok_false_of_mem_missing_files {α : Type} (fund_name : String)
    (download_links : List (Nat × String)) (dfs_by_period : List (Nat × α))
    (series_by_period : List (Nat × Series)) (computed_returns : List (Nat × String))
    (periods_expected : List Nat) (p : Nat)
    (h : p ∈ (validate_fund fund_name download_links dfs_by_period series_by_period
        computed_returns periods_expected).missing_files) :
    (validate_fund fund_name download_links dfs_by_period series_by_period
      computed_returns periods_expected).ok = false := by
  simp only [validate_fund] at h ⊢
  cases hmf : List.filter (fun p => !hasKey dfs_by_period p) periods_expected with
  | nil => rw [hmf] at h; cases h
  | cons a l => simp

/-- C2: in every run of main with a non-empty configured period list, the series
recorded for validation is the empty list for every period whose file decodes,
because the extraction helper name is undefined and the NameError is swallowed
into an empty list; hence every decoded period lands in the empty-series list,
the base period is always absent, and every validation record produced by main
has the overall flag false. -/
theorem C2_validation_always_fails (periods : List Nat) (fund_name : String)
    (links : List (Nat × String)) (decode : String → Table) (r : ValidationResult)
    (hne : periods ≠ [])
    (hr : processFund periods fund_name links decode = some r) :
    (∀ kv ∈ (collectPeriodData links decode periods ([], [])).2, kv.2 = ([] : Series)) ∧
    (∀ p, hasKey (collectPeriodData links decode periods ([], [])).1 p = true →
      p ∈ r.empty_series) ∧
    r.base_period_used = none ∧ r.ok = false := by
  have hprops := collect_props links decode periods ([], []) (by intro kv hkv; cases hkv)
  unfold processFund at hr
  dsimp only [] at hr
  cases hn : normalize_snapshot_from_dfs fund_name
      (collectPeriodData links decode periods ([], [])).1 with
  | error e => rw [hn] at hr; cases hr
  | ok snap =>
    rw [hn] at hr
    injection hr with hr
    subst hr
    have hES : ∀ p, hasKey (collectPeriodData links decode periods ([], [])).1 p = true →
        p ∈ (validate_fund fund_name links (collectPeriodData links decode periods ([], [])).1
          (collectPeriodData links decode periods ([], [])).2 snap.returns
          periods).empty_series := by
      intro p hk
      have hpmem : p ∈ periods := by
        rcases hprops.2 p hk with h1 | h1
        · simp [hasKey] at h1
        · exact h1
      have hlen : (lookupD (collectPeriodData links decode periods ([], [])).2 p []).length < 2 := by
        rcases lookupA_all_const _ p [] hprops.1 with h | h <;> simp [lookupD, h]
      simp only [validate_fund]
      exact List.mem_filter.mpr ⟨hpmem, by simp [hk, hlen]⟩
    have hBS : ∀ p, decide (2 ≤ (lookupD (collectPeriodData links decode periods
        ([], [])).2 p []).length) = false := by
      intro p
      rcases lookupA_all_const _ p [] hprops.1 with h | h <;> simp [lookupD, h]
    refine ⟨hprops.1, hES, ?_, ?_⟩
    · simp only [validate_fund]
      have hf : List.find? (fun p => decide (2 ≤ (lookupD (collectPeriodData links decode
          periods ([], [])).2 p []).length)) [24, 12, 6, 3, 1] = none := by
        rw [List.find?_eq_none]
        intro p _
        simp [hBS p]
      rw [baseScan_eq_find, hf]
      rfl
    · obtain ⟨p0, rest, hps⟩ := List.exists_cons_of_ne_nil hne
      by_cases hk : hasKey (collectPeriodData links decode periods ([], [])).1 p0 = true
      · exact validate_ok_false_of_mem_empty fund_name links _ _ snap.returns periods p0
          (hES p0 hk)
      · apply validate_ok_false_of_mem_missing_files fund_name links _ _ snap.returns periods p0
        simp only [validate_fund]
        refine List.mem_filter.mpr ⟨?_, ?_⟩
        · rw [hps]; exact List.mem_cons_self _ _
        · simp at hk
          simp [hk]

/-- The validation record produced by the C2 witness run. -/
def rC2w : ValidationResult := ⟨"F", false, [], [], [1], [1], none, none⟩

theorem C2_validation_always_fails_witness :
    (([1] : List Nat) ≠ []) ∧
    processFund [1] "F" [(1, "u")] (fun _ => Table.mk [] []) = some rC2w ∧
    (rC2w.base_period_used = none ∧ rC2w.ok = false) :=
  ⟨by decide, by rfl,
    (C2_validation_always_fails [1] "F" [(1, "u")] (fun _ => Table.mk [] []) rC2w
      (by decide) (by rfl)).2.2⟩
